import Mathlib

/-!
Verification development for the DX-spot acquisition layer of the OpenHamClock server
(`server.js`).  The JavaScript source is shallowly embedded: each route handler,
fetcher and parser is translated into an executable Lean function; JavaScript
numbers are modelled as exact rationals (all values reached by the claims lie in
the range where IEEE doubles and rationals agree), and timestamps as naturals.
-/

set_option autoImplicit false

namespace HamClock

/-! ## Character and string utilities mirroring the JavaScript built-ins -/

/-- Model of the JavaScript whitespace class used by `trim`, regex `\s` and
split semantics: ASCII whitespace plus no-break space. -/
def isWs (c : Char) : Bool :=
  c == ' ' || c == '\t' || c == '\n' || c == '\r' || c.toNat == 11 ||
    c.toNat == 12 || c.toNat == 160

/-- Character class of the regex `[A-Z0-9\/\-]` under the `i` flag. -/
def isClassChar (c : Char) : Bool :=
  (('A' ≤ c && c ≤ 'Z') || ('a' ≤ c && c ≤ 'z') || ('0' ≤ c && c ≤ '9') ||
    c == '/' || c == '-')

/-- Model of `String.prototype.startsWith` on character lists. -/
def startsWithL : List Char → List Char → Bool
  | [], _ => true
  | _ :: _, [] => false
  | a :: as, b :: bs => a == b && startsWithL as bs

/-- Model of `String.prototype.includes` on character lists. -/
def containsSub (needle : List Char) : List Char → Bool
  | [] => needle.isEmpty
  | c :: cs => startsWithL needle (c :: cs) || containsSub needle cs

/-- Model of `String.prototype.split(sep)` for a one-character separator:
keeps empty fields, and the split of the empty string is `[""]`. -/
def splitOnChar (sep : Char) : List Char → List (List Char)
  | [] => [[]]
  | c :: cs =>
    if c == sep then [] :: splitOnChar sep cs
    else
      match splitOnChar sep cs with
      | [] => [[c]]
      | g :: gs => (c :: g) :: gs

/-- Model of `String.prototype.trim` on character lists. -/
def jsTrimL (cs : List Char) : List Char :=
  ((cs.dropWhile isWs).reverse.dropWhile isWs).reverse

/-- Model of `String.prototype.toLowerCase` (ASCII range suffices here). -/
def jsToLower (s : String) : String :=
  String.mk (s.data.map Char.toLower)

/-- Model of `String.prototype.toUpperCase` (ASCII range suffices here). -/
def jsToUpper (s : String) : String :=
  String.mk (s.data.map Char.toUpper)

/-- Model of `str.replace(c, emptyString)`: removes the first occurrence of a
single character, used for the spotter group (`match[1].replace` in the
source). -/
def removeFirstColon : List Char → List Char
  | [] => []
  | c :: cs => if c == ':' then cs else c :: removeFirstColon cs

/-! ## JavaScript number model: exact decimal fractions

A feed value is modelled as an unnormalized decimal fraction `m / 10^e`.
Every value the claims touch is a short decimal, where IEEE doubles, rationals
and this type agree; all operations below are plain integer arithmetic, which
the kernel evaluates directly. -/

/-- An exact decimal number `m / 10 ^ e`. -/
structure JsNum where
  m : ℤ
  e : ℕ
deriving DecidableEq, Repr

/-- The rational value of a decimal number (used only in statements). -/
def JsNum.toRat (n : JsNum) : ℚ := (n.m : ℚ) / (10 : ℚ) ^ n.e

/-- The JavaScript comparison `a < b` on decimal numbers. -/
def JsNum.lt (a b : JsNum) : Bool :=
  a.m * ((10 ^ b.e : ℕ) : ℤ) < b.m * ((10 ^ a.e : ℕ) : ℤ)

/-- The JavaScript comparison `0 < a` on decimal numbers. -/
def JsNum.pos (a : JsNum) : Bool := 0 < a.m

/-- Exact division by 1000 (`freqKhz / 1000` in the source). -/
def JsNum.div1000 (a : JsNum) : JsNum := ⟨a.m, a.e + 3⟩

/-- The decimal number 1000 (the kHz-scaling threshold in `fetchHamQTH`). -/
def jsNum1000 : JsNum := ⟨1000, 0⟩

/-- The decimal number 0 (the `|| 0` default of the source). -/
def jsNum0 : JsNum := ⟨0, 0⟩

/-- Numeric value of a list of decimal digit characters. -/
def digitsToNat (ds : List Char) : ℕ :=
  ds.foldl (fun a c => 10 * a + (c.toNat - 48)) 0

/-- Model of `parseFloat`: skip leading whitespace, optional sign, then the
longest prefix of the shape `digits [. digits]`; `none` models `NaN`.
Exponent suffixes never occur in the feeds handled by the claims. -/
def jsParseFloatL (cs0 : List Char) : Option JsNum :=
  let cs1 := cs0.dropWhile isWs
  let sgn : ℤ × List Char :=
    match cs1 with
    | '-' :: r => (-1, r)
    | '+' :: r => (1, r)
    | r => (1, r)
  let ip := sgn.2.takeWhile Char.isDigit
  let rest := sgn.2.dropWhile Char.isDigit
  match rest with
  | '.' :: r =>
    let fp := r.takeWhile Char.isDigit
    if ip.isEmpty && fp.isEmpty then none
    else
      some ⟨sgn.1 * ((digitsToNat ip * 10 ^ fp.length + digitsToNat fp : ℕ) : ℤ), fp.length⟩
  | _ => if ip.isEmpty then none else some ⟨sgn.1 * ((digitsToNat ip : ℕ) : ℤ), 0⟩

/-- Decimal digits of a natural number, least significant first; the first
argument is recursion fuel. -/
def natToRevDigits : ℕ → ℕ → List Char
  | 0, _ => []
  | f + 1, n => if n = 0 then [] else Char.ofNat (48 + n % 10) :: natToRevDigits f (n / 10)

/-- Decimal rendering of a natural number, as printed by JavaScript. -/
def natToChars (n : ℕ) : List Char :=
  if n = 0 then ['0'] else (natToRevDigits n n).reverse

/-- Model of JavaScript `String(x)` for the finite decimal values produced by
`parseFloat` on the feeds: sign, integer part, then the fraction digits with
trailing zeros removed, omitting the dot when the fraction vanishes. -/
def jsNumToString (n : JsNum) : String :=
  let mn := n.m.natAbs
  let p := 10 ^ n.e
  let ip := mn / p
  let frDigits := natToChars (mn % p)
  let padded := List.replicate (n.e - frDigits.length) '0' ++ frDigits
  let ds := (padded.reverse.dropWhile (fun c => c == '0')).reverse
  let body := natToChars ip ++ (if ds.isEmpty then [] else '.' :: ds)
  String.mk (if n.m < 0 then '-' :: body else body)

/-- The three digit characters of `m % 1000`, zero padded. -/
def frac3Chars (m : ℕ) : List Char :=
  [Char.ofNat (48 + m / 100 % 10), Char.ofNat (48 + m / 10 % 10), Char.ofNat (48 + m % 10)]

/-- Model of `x.toFixed(3)` for the non-negative values reached here: round
half away from zero to three decimals and always print exactly three fraction
digits. -/
def toFixed3Chars (n : JsNum) : List Char :=
  let mn := n.m.toNat
  let k : ℕ :=
    if n.e ≤ 3 then mn * 10 ^ (3 - n.e)
    else (2 * mn + 10 ^ (n.e - 3)) / (2 * 10 ^ (n.e - 3))
  natToChars (k / 1000) ++ '.' :: frac3Chars (k % 1000)

/-- String form of `toFixed3Chars`. -/
def toFixed3Str (n : JsNum) : String :=
  String.mk (toFixed3Chars n)

/-- Whether a rendered frequency ends in a dot followed by exactly three
digits (with a nonempty integer part), i.e. has exactly three decimals. -/
def threeDecimals (s : String) : Bool :=
  match s.data.reverse with
  | a :: b :: c :: '.' :: _ :: _ => a.isDigit && b.isDigit && c.isDigit
  | _ => false

/-! ## The Spot record (shape produced by both fetchers in `server.js`) -/

/-- One DX spot as constructed by `fetchHamQTH` or `fetchDXSpider`. -/
structure Spot where
  freq : String
  call : String
  comment : String
  time : String
  spotter : String
  source : String
deriving DecidableEq, Repr

/-! ## HamQTH HTTP fetcher (`fetchHamQTH` in `server.js`)

The CSV body is trimmed, split on newlines, filtered to lines containing the
caret delimiter, truncated to 25, and each remaining line is mapped
positionally. -/

/-- Frequency rendering of `fetchHamQTH`: values above 1000 kHz are divided by
1000 and fixed to three decimals, smaller values are stringified unscaled. -/
def hamFreqRender (raw : List Char) : String :=
  let freqKhz := (jsParseFloatL raw).getD jsNum0
  if jsNum1000.lt freqKhz then toFixed3Str freqKhz.div1000 else jsNumToString freqKhz

/-- Time rendering shared by the HamQTH paths: `HHMM ...` becomes `HH:MMz`,
or the empty string when the raw token is shorter than four characters. -/
def hamTimeRender (timeDate : List Char) : String :=
  if 4 ≤ timeDate.length then
    String.mk (timeDate.take 2) ++ ":" ++ String.mk ((timeDate.drop 2).take 2) ++ "z"
  else ""

/-- Positional mapping of one caret-delimited HamQTH CSV line to a `Spot`,
exactly as in the `lines.slice(0, 25).map` body of `fetchHamQTH`. -/
def parseHamQTHLine (line : List Char) : Spot :=
  let parts := splitOnChar '^' line
  let spotter := parts.getD 0 []
  let dxCall := if (parts.getD 2 []).isEmpty then "UNKNOWN".data else parts.getD 2 []
  let comment := parts.getD 3 []
  let timeDate := parts.getD 4 []
  ⟨hamFreqRender (parts.getD 1 []), String.mk dxCall, String.mk comment,
    hamTimeRender timeDate, String.mk spotter, "HamQTH"⟩

/-- Body handling of `fetchHamQTH` when the HTTP response is `ok`: `none`
models the `return null` taken when no caret line is present. -/
def parseHamQTHBody (text : String) : Option (List Spot) :=
  if 0 < (((splitOnChar '\n' (jsTrimL text.data)).filter (fun l => l.contains '^')).length) then
    some (((((splitOnChar '\n' (jsTrimL text.data)).filter
      (fun l => l.contains '^'))).take 25).map parseHamQTHLine)
  else none

/-- Outcome of the bounded-time HTTP GET performed by `fetchHamQTH`. -/
inductive HttpOutcome where
  | ok (body : String)
  | httpError
  | transportError
deriving DecidableEq

/-- The whole of `fetchHamQTH`: a non-ok status and any thrown transport or
abort error are absorbed by its `try`/`catch` into a `null` result. -/
def fetchHamQTH : HttpOutcome → Option (List Spot)
  | .ok body => parseHamQTHBody body
  | .httpError => none
  | .transportError => none

/-! ## DX Spider line parser (`fetchDXSpider` data handler)

The source tests `line.includes(` the literal `DX de )` and then applies the
regex `DX de ([A-Z0-9\/\-]+):\s+(\d+\.?\d*)\s+([A-Z0-9\/\-]+)\s+(.+?)\s+(\d{4})Z`
with the `i` flag.  The matcher below reproduces the backtracking semantics of
that pattern: every capturing class is disjoint from its follower except the
whitespace run before the lazy comment group, which is the single place where
the regex engine can backtrack, handled by `wsCommentTail`. -/

/-- The literal `DX de ` lowered for case-insensitive comparison. -/
def litDxDe : List Char := ['d', 'x', ' ', 'd', 'e', ' ']

/-- Strip a lowercase literal case-insensitively; `none` when it is absent. -/
def stripCI : List Char → List Char → Option (List Char)
  | [], cs => some cs
  | _ :: _, [] => none
  | l :: ls, c :: cs => if c.toLower == l then stripCI ls cs else none

/-- Captured groups of the DX Spider spot-line regex. -/
structure SpotGroups where
  spotter : List Char
  freqRaw : List Char
  dxCall : List Char
  comment : List Char
  timeRaw : List Char
deriving DecidableEq, Repr

/-- Take the longest nonempty run of characters satisfying a class, failing
when the run is empty: the deterministic form of a greedy `X+` whose class is
disjoint from the following construct. -/
def reqNonEmpty (p : Char → Bool) (cs : List Char) : Option (List Char × List Char) :=
  if (cs.takeWhile p).isEmpty then none else some (cs.takeWhile p, cs.dropWhile p)

/-- Expect one given character. -/
def expectChar (c : Char) : List Char → Option (List Char)
  | x :: xs => if x == c then some xs else none
  | [] => none

/-- Greedy `\d+\.?\d*` after its mandatory digit run. -/
def freqTail (d1 : List Char) (cs : List Char) : List Char × List Char :=
  match cs with
  | '.' :: r => (d1 ++ '.' :: r.takeWhile Char.isDigit, r.dropWhile Char.isDigit)
  | _ => (d1, cs)

/-- Check for `\s+(\d{4})[Zz]` at the current position, returning the four
captured digits; shrinking the whitespace run can never help because a digit
is not whitespace, so no backtracking is needed inside this fragment. -/
def tailCheck (cs : List Char) : Option (List Char) :=
  let ws := cs.takeWhile isWs
  let rest := cs.dropWhile isWs
  if ws.isEmpty then none
  else
    match rest with
    | a :: b :: c :: d :: z :: _ =>
      if a.isDigit && b.isDigit && c.isDigit && d.isDigit && (z == 'Z' || z == 'z') then
        some [a, b, c, d]
      else none
    | _ => none

/-- Lazy `(.+?)` before `\s+(\d{4})Z`: extend the comment one character at a
time (the dot never matches a line break) until the tail matches. -/
def commentLoop (acc : List Char) : List Char → Option (List Char × List Char)
  | [] => none
  | c :: cs =>
    if c == '\r' || c == '\n' then none
    else
      match tailCheck cs with
      | some t => some (acc ++ [c], t)
      | none => commentLoop (acc ++ [c]) cs

/-- Backtracking over the greedy whitespace run that precedes the lazy
comment: try consuming the whole run first, then shrink it one character at a
time (its reversed form is the first argument), never consuming zero. -/
def wsCommentTail : List Char → List Char → Option (List Char × List Char)
  | [], _ => none
  | w :: wsRev, tailCs =>
    match commentLoop [] tailCs with
    | some r => some r
    | none => wsCommentTail wsRev (w :: tailCs)

/-- Attempt the spot-line regex at one start position. -/
def tryMatchAt (cs : List Char) : Option SpotGroups :=
  (stripCI litDxDe cs).bind fun cs1 =>
  (reqNonEmpty isClassChar cs1).bind fun p1 =>
  (expectChar ':' p1.2).bind fun cs3 =>
  (reqNonEmpty isWs cs3).bind fun w1 =>
  (reqNonEmpty Char.isDigit w1.2).bind fun pd =>
  let fr := freqTail pd.1 pd.2
  (reqNonEmpty isWs fr.2).bind fun w2 =>
  (reqNonEmpty isClassChar w2.2).bind fun p3 =>
  (reqNonEmpty isWs p3.2).bind fun w3 =>
  (wsCommentTail w3.1.reverse w3.2).map fun ct =>
    ⟨p1.1, fr.1, p3.1, ct.1, ct.2⟩

/-- Model of `line.match(regex)`: try every start position left to right. -/
def scanMatch : List Char → Option SpotGroups
  | [] => none
  | c :: cs =>
    match tryMatchAt (c :: cs) with
    | some g => some g
    | none => scanMatch cs

/-- Guarded match as performed by the data handler: the case-sensitive
`includes` pre-filter, then the case-insensitive regex. -/
def dxLineGroups (line : String) : Option SpotGroups :=
  if containsSub ("DX de ".data) line.data then scanMatch line.data else none

/-- Spot built from a successful DX Spider line match. -/
def mkSpiderSpot (g : SpotGroups) : Spot :=
  ⟨toFixed3Str ((jsParseFloatL g.freqRaw).getD jsNum0).div1000, String.mk g.dxCall,
    String.mk (jsTrimL g.comment), hamTimeRender g.timeRaw,
    String.mk (removeFirstColon g.spotter), "DX Spider"⟩

/-- Processing of one buffer line by the DX Spider data handler: parse, check
the frequency is a positive number and the call nonempty, then append unless a
spot with the same call and rendered frequency is already retained. -/
def processDXLine (spots : List Spot) (line : String) : List Spot :=
  match dxLineGroups line with
  | none => spots
  | some g =>
    if ((jsParseFloatL g.freqRaw).getD jsNum0).pos && !g.dxCall.isEmpty then
      if spots.any (fun s => s.call == (mkSpiderSpot g).call && s.freq == (mkSpiderSpot g).freq)
      then spots
      else spots ++ [mkSpiderSpot g]
    else spots

/-- Result a DX Spider session resolves with on `close`: the spots collected
from the buffer lines, or `null` when none were parsed. -/
def dxSpiderSessionResult (lines : List String) : Option (List Spot) :=
  if (lines.foldl processDXLine []).isEmpty then none
  else some (lines.foldl processDXLine [])

/-! ## Source selection (`/api/dxcluster/spots` handler tail) -/

/-- Which fetchers ran and what the selection block left in `spots`.  The
fetcher results are supplied as oracles (`Option` mirrors the `null` failure
value each fetcher resolves with). -/
structure SelectorTrace where
  result : Option (List Spot)
  hamInvoked : Bool
  spiderInvoked : Bool

/-- The `if source === ...` selection block of the spots handler: explicit
`hamqth`, explicit `dxspider` with fallback to HamQTH on `null`, and the
`auto` default trying HamQTH first and DX Spider only on `null`. -/
def runSelector (source : String) (ham spider : Option (List Spot)) : SelectorTrace :=
  if source == "hamqth" then ⟨ham, true, false⟩
  else if source == "dxspider" then
    match spider with
    | some s => ⟨some s, false, true⟩
    | none => ⟨ham, true, true⟩
  else
    match ham with
    | some s => ⟨some s, true, false⟩
    | none => ⟨spider, true, true⟩

/-- The whole `/api/dxcluster/spots` handler: lower-case the query parameter,
run the selection block, and answer `res.json(spots ?? [])`, which always
carries HTTP status 200. -/
def spotsEndpoint (rawSource : String) (h : HttpOutcome) (spiderLines : List String) :
    ℕ × List Spot :=
  let tr := runSelector (jsToLower rawSource) (fetchHamQTH h) (dxSpiderSessionResult spiderLines)
  (200, tr.result.getD [])

/-! ## Caches

Each module-level cache is a payload plus the millisecond timestamp stored
with it.  The handlers capture `Date.now()` at entry; the DX Spider close
handler calls `Date.now()` again when the session ends, so both instants are
made explicit parameters below, exactly marking which one the source stores. -/

/-- A module-level cache cell: `data`/`spots` plus its stored timestamp. -/
structure CacheEntry (α : Type) where
  data : Option α
  timestamp : ℕ
deriving DecidableEq

/-- The DX Spider spot cache (`dxSpiderCache`). -/
structure DxSpiderCache where
  spots : List Spot
  timestamp : ℕ
deriving DecidableEq

/-- The `close` handler of `fetchDXSpider`: a session that collected spots
overwrites the cache with them and the close-time `Date.now()`; a session that
collected none resolves `null` and leaves the cache untouched. -/
def dxSpiderOnClose (collected : List Spot) (tClose : ℕ) (c : DxSpiderCache) :
    DxSpiderCache × Option (List Spot) :=
  if 0 < collected.length then (⟨collected, tClose⟩, some collected) else (c, none)

/-- Cache-freshness test at the top of `fetchDXSpider`. -/
def dxSpiderCacheTTL : ℕ := 60000

/-- Entry check of `fetchDXSpider`: serve the cached spots when they are fresh
and nonempty, otherwise (`none`) proceed to open a session. -/
def fetchDXSpiderEntry (now : ℕ) (c : DxSpiderCache) : Option (List Spot) :=
  if now - c.timestamp < dxSpiderCacheTTL && 0 < c.spots.length then some c.spots else none

/-- The whole of `fetchDXSpider`: serve the cache when the entry check passes,
otherwise open a session whose collected buffer lines are `sessionLines`
(empty on connect failure or timeout) and resolve via the `close` handler at
instant `tClose`.  Returns the cache afterwards and the resolved value. -/
def fetchDXSpider (now tClose : ℕ) (c : DxSpiderCache) (sessionLines : List String) :
    DxSpiderCache × Option (List Spot) :=
  match fetchDXSpiderEntry now c with
  | some spots => (c, some spots)
  | none => dxSpiderOnClose (sessionLines.foldl processDXLine []) tClose c

/-- The DXpedition cache TTL (30 minutes in milliseconds). -/
def dxpedMaxAge : ℕ := 30 * 60 * 1000

/-- The `/api/dxpeditions` handler reduced to its cache behavior.  `tEntry` is
the `Date.now()` captured at the top of the handler, `outcome` the upstream
fetch-and-parse result (`none` models any thrown error), and `tDone` the
instant the fetch completed — which the source never reads.  The reply is
`(status, payload, staleFlag)`. -/
def dxpeditionsHandler {α : Type} (tEntry : ℕ) (c : CacheEntry α) (outcome : Option α)
    (tDone : ℕ) : CacheEntry α × (ℕ × Option α × Bool) :=
  if c.data.isSome && decide (tEntry - c.timestamp < dxpedMaxAge) then (c, 200, c.data, false)
  else
    match outcome with
    | some d => (⟨some d, tEntry⟩, 200, some d, false)
    | none =>
      match c.data with
      | some d => (c, 200, some d, true)
      | none => (c, 500, none, false)

/-- The TLE cache TTL (6 hours in milliseconds). -/
def tleCacheDuration : ℕ := 6 * 60 * 60 * 1000

/-- The `/api/satellites/tle` handler reduced to its cache behavior: same time
convention as `dxpeditionsHandler`; on a successful fetch it stores the
entry-time `now`, and its `catch` answers the stale cache (or an empty
payload) without touching the cache. -/
def tleHandler {α : Type} (tEntry : ℕ) (c : CacheEntry α) (outcome : Option α)
    (tDone : ℕ) : CacheEntry α × Option α :=
  if c.data.isSome && decide (tEntry - c.timestamp < tleCacheDuration) then (c, c.data)
  else
    match outcome with
    | some d => (⟨some d, tEntry⟩, some d)
    | none => (c, c.data)

/-! ## Prefix geolocation (`estimateLocationFromPrefix`) -/

/-- One row of the prefix table: latitude, longitude, country. -/
structure GeoLoc where
  lat : ℚ
  lon : ℚ
  country : String
deriving DecidableEq, Repr

/-- An estimate returned by the prefix lookup. -/
structure EstimatedLoc where
  callsign : String
  lat : ℚ
  lon : ℚ
  country : String
  estimated : Bool
deriving DecidableEq, Repr

/-- The `prefixLocations` table, transcribed row for row from the source. -/
def prefixLocations : List (String × GeoLoc) :=
  [("K", ⟨39.8, -98.5, "USA"⟩), ("W", ⟨39.8, -98.5, "USA"⟩),
   ("N", ⟨39.8, -98.5, "USA"⟩), ("AA", ⟨39.8, -98.5, "USA"⟩),
   ("AB", ⟨39.8, -98.5, "USA"⟩), ("VE", ⟨56.1, -106.3, "Canada"⟩),
   ("VA", ⟨56.1, -106.3, "Canada"⟩), ("G", ⟨52.4, -1.5, "England"⟩),
   ("M", ⟨52.4, -1.5, "England"⟩), ("F", ⟨46.2, 2.2, "France"⟩),
   ("DL", ⟨51.2, 10.4, "Germany"⟩), ("DJ", ⟨51.2, 10.4, "Germany"⟩),
   ("DK", ⟨51.2, 10.4, "Germany"⟩), ("I", ⟨41.9, 12.6, "Italy"⟩),
   ("JA", ⟨36.2, 138.3, "Japan"⟩), ("JH", ⟨36.2, 138.3, "Japan"⟩),
   ("JR", ⟨36.2, 138.3, "Japan"⟩), ("VK", ⟨-25.3, 133.8, "Australia"⟩),
   ("ZL", ⟨-40.9, 174.9, "New Zealand"⟩), ("ZS", ⟨-30.6, 22.9, "South Africa"⟩),
   ("LU", ⟨-38.4, -63.6, "Argentina"⟩), ("PY", ⟨-14.2, -51.9, "Brazil"⟩),
   ("EA", ⟨40.5, -3.7, "Spain"⟩), ("CT", ⟨39.4, -8.2, "Portugal"⟩),
   ("PA", ⟨52.1, 5.3, "Netherlands"⟩), ("ON", ⟨50.5, 4.5, "Belgium"⟩),
   ("OZ", ⟨56.3, 9.5, "Denmark"⟩), ("SM", ⟨60.1, 18.6, "Sweden"⟩),
   ("LA", ⟨60.5, 8.5, "Norway"⟩), ("OH", ⟨61.9, 25.7, "Finland"⟩),
   ("UA", ⟨61.5, 105.3, "Russia"⟩), ("RU", ⟨61.5, 105.3, "Russia"⟩),
   ("RA", ⟨61.5, 105.3, "Russia"⟩), ("BY", ⟨35.9, 104.2, "China"⟩),
   ("BV", ⟨23.7, 121.0, "Taiwan"⟩), ("HL", ⟨35.9, 127.8, "South Korea"⟩),
   ("VU", ⟨20.6, 79.0, "India"⟩), ("HS", ⟨15.9, 100.9, "Thailand"⟩),
   ("DU", ⟨12.9, 121.8, "Philippines"⟩), ("YB", ⟨-0.8, 113.9, "Indonesia"⟩),
   ("9V", ⟨1.4, 103.8, "Singapore"⟩), ("9M", ⟨4.2, 101.9, "Malaysia"⟩)]

/-- Property lookup on the table object (keys are unique). -/
def lookupTable (k : String) : Option GeoLoc :=
  (prefixLocations.find? (fun p => p.1 == k)).map Prod.snd

/-- The `estimateLocationFromPrefix` function: the two-character key takes
precedence over the one-character key, every hit is tagged `estimated`. -/
def estimateLocationFromPrefix (callsign : String) : Option EstimatedLoc :=
  match lookupTable (String.mk (callsign.data.take 2)) with
  | some loc => some ⟨callsign, loc.lat, loc.lon, loc.country, true⟩
  | none =>
    match lookupTable (String.mk (callsign.data.take 1)) with
    | some loc => some ⟨callsign, loc.lat, loc.lon, loc.country, true⟩
    | none => none

/-! ## Path composition (`/api/dxcluster/paths` handler core) -/

/-- One parsed spot as the paths handler holds it before location joining. -/
structure PathSpot where
  spotter : String
  dxCall : String
  freq : String
  comment : String
  time : String
deriving DecidableEq, Repr

/-- One emitted path object. -/
structure DxPath where
  spotter : String
  spotterLat : ℚ
  spotterLon : ℚ
  spotterCountry : String
  dxCall : String
  dxLat : ℚ
  dxLon : ℚ
  dxCountry : String
  freq : String
  comment : String
  time : String
deriving DecidableEq, Repr

/-- Append an element unless already present: the effect of `Set.add` under
JavaScript insertion order. -/
def insertUnique (l : List String) (x : String) : List String :=
  if x ∈ l then l else l ++ [x]

/-- The distinct callsigns of a spot batch in first-occurrence order, spotter
before DX call per spot, as built by `spots.forEach` over `allCalls`. -/
def uniqueCalls (spots : List PathSpot) : List String :=
  spots.foldl (fun acc s => insertUnique (insertUnique acc s.spotter) s.dxCall) []

/-- The `locations` map of the paths handler: the first 40 distinct callsigns
that the prefix estimator resolves, each with its coordinates. -/
def pathLocations (spots : List PathSpot) : List (String × GeoLoc) :=
  ((uniqueCalls spots).take 40).filterMap fun c =>
    ( estimateLocationFromPrefix c).map fun e => (c, ⟨e.lat, e.lon, e.country⟩)

/-- Lookup in the `locations` map (`locations[call]` in the source). -/
def pathLookup (spots : List PathSpot) (c : String) : Option GeoLoc :=
  ((pathLocations spots).find? (fun p => p.1 == c)).map Prod.snd

/-- The join stage of the paths handler: emit a path for every spot whose two
endpoints are both in the location map, and cap the result at 25. -/
def buildPaths (spots : List PathSpot) : List DxPath :=
  (spots.filterMap fun s =>
    match pathLookup spots s.spotter, pathLookup spots s.dxCall with
    | some sl, some dl =>
      some ⟨s.spotter, sl.lat, sl.lon, sl.country, s.dxCall, dl.lat, dl.lon, dl.country,
        s.freq, s.comment, s.time⟩
    | _, _ => none).take 25

/-! ## Helper lemmas -/

theorem mkStr_ne_empty {l : List Char} (h : l ≠ []) : String.mk l ≠ "" := by
  intro he
  exact h (by simpa using congrArg String.data he)

theorem natToChars_ne_nil (n : ℕ) : natToChars n ≠ [] := by
  unfold natToChars
  split
  · simp
  · rename_i hn
    obtain ⟨f, hf⟩ := Nat.exists_eq_succ_of_ne_zero hn
    rw [hf]
    show (natToRevDigits (f + 1) (f + 1)).reverse ≠ []
    unfold natToRevDigits
    simp

theorem isDigit_ofNat_mod (x : ℕ) : (Char.ofNat (48 + x % 10)).isDigit = true := by
  have hb : ∀ d, d < 10 → (Char.ofNat (48 + d)).isDigit = true := by decide
  exact hb (x % 10) (Nat.mod_lt x (by norm_num))

theorem threeDecimals_toFixed3 (n : JsNum) : threeDecimals (toFixed3Str n) = true := by
  unfold toFixed3Str toFixed3Chars frac3Chars threeDecimals
  obtain ⟨y, ys, hy⟩ := List.exists_cons_of_ne_nil
    (fun h => natToChars_ne_nil _ (List.reverse_eq_nil_iff.mp h) :
      (natToChars (_ / 1000)).reverse ≠ [])
  simp only [String.data]
  rw [List.reverse_append]
  simp only [List.reverse_cons, List.reverse_nil, List.nil_append, List.cons_append,
    List.append_assoc]
  rw [hy]
  simp [isDigit_ofNat_mod]

theorem reqNonEmpty_some {p : Char → Bool} {cs : List Char} {r : List Char × List Char}
    (h : reqNonEmpty p cs = some r) : r.1 ≠ [] ∧ ∀ c ∈ r.1, p c = true := by
  unfold reqNonEmpty at h
  split at h
  · exact absurd h (by simp)
  · rename_i hne
    obtain rfl : (cs.takeWhile p, cs.dropWhile p) = r := by simpa using h
    exact ⟨by simpa [List.isEmpty_iff] using hne, fun c hc => List.mem_takeWhile_imp hc⟩

theorem tryMatchAt_groups {cs : List Char} {g : SpotGroups} (h : tryMatchAt cs = some g) :
    g.spotter ≠ [] ∧ (∀ c ∈ g.spotter, isClassChar c = true) ∧ g.dxCall ≠ [] := by
  unfold tryMatchAt at h
  obtain ⟨cs1, -, h⟩ := Option.bind_eq_some.mp h
  obtain ⟨p1, hp1, h⟩ := Option.bind_eq_some.mp h
  obtain ⟨cs3, -, h⟩ := Option.bind_eq_some.mp h
  obtain ⟨w1, -, h⟩ := Option.bind_eq_some.mp h
  obtain ⟨pd, -, h⟩ := Option.bind_eq_some.mp h
  dsimp only at h
  obtain ⟨w2, -, h⟩ := Option.bind_eq_some.mp h
  obtain ⟨p3, hp3, h⟩ := Option.bind_eq_some.mp h
  obtain ⟨w3, -, h⟩ := Option.bind_eq_some.mp h
  obtain ⟨ct, -, hg⟩ := Option.map_eq_some'.mp h
  obtain ⟨hs1, hs2⟩ := reqNonEmpty_some hp1
  obtain ⟨hd1, -⟩ := reqNonEmpty_some hp3
  subst hg
  exact ⟨hs1, hs2, hd1⟩

theorem scanMatch_groups {cs : List Char} {g : SpotGroups} (h : scanMatch cs = some g) :
    g.spotter ≠ [] ∧ (∀ c ∈ g.spotter, isClassChar c = true) ∧ g.dxCall ≠ [] := by
  induction cs with
  | nil => simp [scanMatch] at h
  | cons c cs ih =>
    unfold scanMatch at h
    cases htry : tryMatchAt (c :: cs) with
    | some g2 =>
      rw [htry] at h
      cases h
      exact tryMatchAt_groups htry
    | none =>
      rw [htry] at h
      exact ih h

theorem dxLineGroups_groups {line : String} {g : SpotGroups}
    (h : dxLineGroups line = some g) :
    g.spotter ≠ [] ∧ (∀ c ∈ g.spotter, isClassChar c = true) ∧ g.dxCall ≠ [] := by
  unfold dxLineGroups at h
  split at h
  · exact scanMatch_groups h
  · exact absurd h (by simp)

theorem removeFirstColon_class {l : List Char} (h : ∀ c ∈ l, isClassChar c = true) :
    removeFirstColon l = l := by
  induction l with
  | nil => rfl
  | cons c cs ih =>
    unfold removeFirstColon
    have hc : isClassChar c = true := h c (by simp)
    have hne : (c == ':') = false := by
      cases hb : c == ':'
      · rfl
      · rw [eq_of_beq hb] at hc
        exact absurd hc (by decide)
    rw [hne]
    simp only [cond_false, ite_false, Bool.false_eq_true]
    rw [ih (fun d hd => h d (by simp [hd]))]

/-- The per-spot invariant guaranteed by the DX Spider parser. -/
def SpiderSpotOk (s : Spot) : Prop :=
  s.call ≠ "" ∧ s.spotter ≠ "" ∧ threeDecimals s.freq = true ∧ s.source = "DX Spider"

theorem processDXLine_ok {spots : List Spot} {line : String}
    (hall : ∀ t ∈ spots, SpiderSpotOk t) :
    ∀ s ∈ processDXLine spots line, SpiderSpotOk s := by
  intro s hs
  unfold processDXLine at hs
  split at hs
  · exact hall s hs
  · rename_i g hg
    split at hs
    · rename_i hcond
      split at hs
      · exact hall s hs
      · rcases List.mem_append.mp hs with hold | hnew
        · exact hall s hold
        · obtain rfl : s = mkSpiderSpot g := by simpa using hnew
          obtain ⟨hsp, hspc, -⟩ := dxLineGroups_groups hg
          have hdx : g.dxCall ≠ [] := by
            have h2 := (Bool.and_eq_true _ _).mp hcond |>.2
            simpa [List.isEmpty_iff] using h2
          refine ⟨mkStr_ne_empty hdx, ?_, threeDecimals_toFixed3 _, rfl⟩
          rw [mkSpiderSpot]
          simpa [removeFirstColon_class hspc] using mkStr_ne_empty hsp
    · exact hall s hs

theorem foldDX_ok (lines : List String) :
    ∀ acc : List Spot, (∀ t ∈ acc, SpiderSpotOk t) →
      ∀ s ∈ lines.foldl processDXLine acc, SpiderSpotOk s := by
  induction lines with
  | nil => intro acc hacc s hs; exact hacc s hs
  | cons l ls ih =>
    intro acc hacc s hs
    exact ih (processDXLine acc l) (processDXLine_ok hacc) s hs

theorem fetchHamQTH_some_ne_nil {h : HttpOutcome} {l : List Spot}
    (he : fetchHamQTH h = some l) : l ≠ [] := by
  cases h with
  | ok body =>
    simp only [fetchHamQTH] at he
    unfold parseHamQTHBody at he
    split at he
    · rename_i hpos
      obtain rfl := Option.some.inj he
      simp only [ne_eq, List.map_eq_nil_iff, List.take_eq_nil_iff]
      rintro (h25 | hnil)
      · exact absurd h25 (by norm_num)
      · rw [hnil] at hpos
        simp at hpos
    · exact absurd he (by simp)
  | httpError => exact absurd he (by simp [fetchHamQTH])
  | transportError => exact absurd he (by simp [fetchHamQTH])

theorem splitOnChar_sepFree {sep : Char} {xs : List Char} (h : ∀ c ∈ xs, ¬c = sep) :
    splitOnChar sep xs = [xs] := by
  induction xs with
  | nil => rfl
  | cons c cs ih =>
    unfold splitOnChar
    have hc : (c == sep) = false := by
      simpa using h c (by simp)
    rw [hc]
    simp only [Bool.false_eq_true, ite_false]
    rw [ih (fun d hd => h d (by simp [hd]))]

theorem splitOnChar_append {sep : Char} {xs ys : List Char} (h : ∀ c ∈ xs, ¬c = sep) :
    splitOnChar sep (xs ++ sep :: ys) = xs :: splitOnChar sep ys := by
  induction xs with
  | nil =>
    show splitOnChar sep (sep :: ys) = [] :: splitOnChar sep ys
    rw [splitOnChar]
    simp
  | cons c cs ih =>
    have hc : (c == sep) = false := by
      simpa using h c (by simp)
    show splitOnChar sep (c :: (cs ++ sep :: ys)) = (c :: cs) :: splitOnChar sep ys
    rw [splitOnChar, hc]
    simp only [Bool.false_eq_true, ite_false]
    rw [ih (fun d hd => h d (by simp [hd]))]

/-! ## Shared concrete material for witnesses -/

/-- A canonical DX Spider feed line. -/
def spiderLine1 : String :=
  "DX de W3LPL:     14195.0  TI5/AA8HH    FT8 -09 dB           1234Z"

/-- A second feed line with the same DX call and frequency, different spotter
and comment. -/
def spiderLine2 : String := "DX de K9XYZ: 14195.0 TI5/AA8HH loud signal 1240Z"

/-- The spot that `spiderLine1` parses to. -/
def sampleSpot : Spot := ⟨"14.195", "TI5/AA8HH", "FT8 -09 dB", "12:34z", "W3LPL", "DX Spider"⟩

/-- Three path-endpoint spots of which only the first two have both
callsigns resolvable by the prefix table (no entry starts with `Q`). -/
def pathScenario : List PathSpot :=
  [⟨"K1ABC", "DL1XX", "14.074", "cq", "12:34z"⟩,
   ⟨"W2DEF", "JA1AA", "7.074", "cq", "12:35z"⟩,
   ⟨"Q9QQQ", "DL2YY", "3.500", "cq", "12:36z"⟩]

/-! ## Claim theorems -/

/-- Claim C1: for every request to the spots endpoint, whatever the source
preference and upstream outcome, the handler responds with HTTP 200 and a
well-formed (possibly empty) JSON array; the failure path of each fetcher resolves
to null/empty rather than throwing. -/
theorem c1_spots_endpoint_always_ok (rawSource : String) (h : HttpOutcome)
    (spiderLines : List String) :
    (spotsEndpoint rawSource h spiderLines).1 = 200 ∧
    fetchHamQTH HttpOutcome.httpError = none ∧
    fetchHamQTH HttpOutcome.transportError = none ∧
    dxSpiderSessionResult [] = none :=
  ⟨rfl, rfl, rfl, rfl⟩

/-- Reduction of the selection block under `auto` when HamQTH failed. -/
theorem runSelector_auto_none (sp : Option (List Spot)) :
    runSelector "auto" none sp = ⟨sp, true, true⟩ := rfl

/-- Reduction of the selection block under `auto` when HamQTH succeeded. -/
theorem runSelector_auto_some (l : List Spot) (sp : Option (List Spot)) :
    runSelector "auto" (some l) sp = ⟨some l, true, false⟩ := rfl

/-- Claim C2: under `auto` the selector invokes HamQTH first and invokes DX
Spider iff HamQTH yielded no spots; when the fallback supplies the result
every returned spot carries the `DX Spider` provenance tag. -/
theorem c2_auto_fallback (h : HttpOutcome) (lines : List String) (s : Spot) :
    (runSelector "auto" (fetchHamQTH h) (dxSpiderSessionResult lines)).hamInvoked = true ∧
    ((runSelector "auto" (fetchHamQTH h) (dxSpiderSessionResult lines)).spiderInvoked = true ↔
      (fetchHamQTH h).getD [] = []) ∧
    (fetchHamQTH h = none →
      (runSelector "auto" (fetchHamQTH h) (dxSpiderSessionResult lines)).result =
        dxSpiderSessionResult lines) ∧
    (fetchHamQTH h = none →
      s ∈ ((runSelector "auto" (fetchHamQTH h) (dxSpiderSessionResult lines)).result).getD [] →
      s.source = "DX Spider") := by
  cases hh : fetchHamQTH h with
  | none =>
    refine ⟨by rw [runSelector_auto_none], ?_, fun _ => by rw [runSelector_auto_none],
      fun _ hs => ?_⟩
    · rw [runSelector_auto_none]
      simp
    · rw [runSelector_auto_none] at hs
      unfold dxSpiderSessionResult at hs
      split at hs
      · simp at hs
      · exact (foldDX_ok lines [] (by simp) s (by simpa using hs)).2.2.2
  | some l =>
    have hl := fetchHamQTH_some_ne_nil hh
    refine ⟨by rw [runSelector_auto_some], ?_, fun hc => absurd hc (by simp),
      fun hc _ => absurd hc (by simp)⟩
    rw [runSelector_auto_some]
    simp [hl]

/-- Witness for claim C2 at a failed HTTP fetch and one session line. -/
theorem c2_auto_fallback_witness : sampleSpot.source = "DX Spider" :=
  (c2_auto_fallback HttpOutcome.httpError [spiderLine1] sampleSpot).2.2.2 rfl (by decide)

/-- Claim C3 counterexample: the DX Spider cache does not stale-serve.  A
session is opened only when the entry check already failed, so a cache holding
a previously fetched payload is refreshed only when stale; the failed refresh
leaves it stale and untouched, and the subsequent fetch (entry check fails
again, new session fails again) resolves null — the route then answers an
empty array, not the previous payload. -/
theorem c3_spider_stale_serving_counterexample :
    (⟨[sampleSpot], 0⟩ : DxSpiderCache).spots ≠ [] ∧
    fetchDXSpiderEntry 60000 ⟨[sampleSpot], 0⟩ = none ∧
    fetchDXSpider 60000 60005 ⟨[sampleSpot], 0⟩ [] = (⟨[sampleSpot], 0⟩, none) ∧
    fetchDXSpider 60010 60015 ⟨[sampleSpot], 0⟩ [] = (⟨[sampleSpot], 0⟩, none) ∧
    (fetchDXSpider 60010 60015 ⟨[sampleSpot], 0⟩ []).2 ≠ some [sampleSpot] := by
  decide

/-- Claim C3 amended: the DXpedition cache stale-serves — a failed refresh
leaves the cell untouched and the handler answers the previous payload.  The
DX Spider cache does not: a failed session leaves payload and timestamp
untouched, but since a session only runs on a stale cache, a subsequent fetch
whose session also fails resolves null rather than the previous payload; the
cached spots are served by the entry check only while the cache is fresh. -/
theorem c3_cache_failure_semantics (α : Type) (c : CacheEntry α) (d : α)
    (hd : c.data = some d) (tEntry tDone tClose now2 tClose2 now3 : ℕ)
    (sc : DxSpiderCache) (lines : List String)
    (hstale : ¬ (now2 - sc.timestamp < dxSpiderCacheTTL))
    (hfail : lines.foldl processDXLine [] = []) :
    (dxpeditionsHandler tEntry c none tDone).1 = c ∧
    (dxpeditionsHandler tEntry c none tDone).2.2.1 = some d ∧
    (dxpeditionsHandler tEntry c none tDone).2.1 = 200 ∧
    dxSpiderOnClose [] tClose sc = (sc, none) ∧
    fetchDXSpider now2 tClose2 sc lines = (sc, none) ∧
    (now3 - sc.timestamp < dxSpiderCacheTTL → 0 < sc.spots.length →
      fetchDXSpiderEntry now3 sc = some sc.spots) := by
  have hmain : (dxpeditionsHandler tEntry c none tDone).1 = c ∧
      (dxpeditionsHandler tEntry c none tDone).2.2.1 = some d ∧
      (dxpeditionsHandler tEntry c none tDone).2.1 = 200 := by
    simp only [dxpeditionsHandler, hd]
    split <;> simp
  have hentry : fetchDXSpiderEntry now2 sc = none := by
    simp [fetchDXSpiderEntry, hstale]
  refine ⟨hmain.1, hmain.2.1, hmain.2.2, by simp [dxSpiderOnClose], ?_, ?_⟩
  · unfold fetchDXSpider
    rw [hentry, hfail]
    simp [dxSpiderOnClose]
  · intro hf hn
    simp [fetchDXSpiderEntry, hf, hn]

/-- Witness for the amended claim C3 on concrete cache states: a filled
DXpedition cache with a failed refresh, and a stale spider cache whose
failed re-fetch resolves null while a fresh read would have served it. -/
theorem c3_cache_failure_semantics_witness :
    (dxpeditionsHandler 5 (⟨some 7, 0⟩ : CacheEntry ℕ) none 9).1 = ⟨some 7, 0⟩ ∧
    (dxpeditionsHandler 5 (⟨some 7, 0⟩ : CacheEntry ℕ) none 9).2.2.1 = some 7 ∧
    (dxpeditionsHandler 5 (⟨some 7, 0⟩ : CacheEntry ℕ) none 9).2.1 = 200 ∧
    dxSpiderOnClose [] 11 ⟨[sampleSpot], 0⟩ = (⟨[sampleSpot], 0⟩, none) ∧
    fetchDXSpider 60000 60005 ⟨[sampleSpot], 0⟩ [] = (⟨[sampleSpot], 0⟩, none) ∧
    fetchDXSpiderEntry 50 ⟨[sampleSpot], 0⟩ = some [sampleSpot] := by
  have h := c3_cache_failure_semantics ℕ ⟨some 7, 0⟩ 7 rfl 5 9 11 60000 60005 50
    ⟨[sampleSpot], 0⟩ [] (by decide) rfl
  exact ⟨h.1, h.2.1, h.2.2.1, h.2.2.2.1, h.2.2.2.2.1, h.2.2.2.2.2 (by decide) (by decide)⟩

/-- Claim C4 counterexample: at entry time 0 and fetch-completion time 5, both
the TLE and the DXpedition cache store a timestamp different from the
completion time (they store the request-entry time). -/
theorem c4_fetch_completion_counterexample :
    (tleHandler 0 (⟨none, 0⟩ : CacheEntry ℕ) (some 42) 5).1.timestamp ≠ 5 ∧
    (dxpeditionsHandler 0 (⟨none, 0⟩ : CacheEntry ℕ) (some 42) 5).1.timestamp ≠ 5 := by
  decide

/-- Claim C4 amended: only the DX Spider cache stores the fetch-completion
time; the TLE and DXpedition caches store the handler-entry time captured
before the fetch. -/
theorem c4_cache_timestamp_semantics (α : Type) (tEntry tDone tClose : ℕ)
    (c : CacheEntry α) (d : α) (hmiss : c.data = none)
    (collected : List Spot) (sc : DxSpiderCache) (hne : collected ≠ []) :
    (tleHandler tEntry c (some d) tDone).1.timestamp = tEntry ∧
    (dxpeditionsHandler tEntry c (some d) tDone).1.timestamp = tEntry ∧
    (dxSpiderOnClose collected tClose sc).1.timestamp = tClose := by
  refine ⟨?_, ?_, ?_⟩
  · simp [tleHandler, hmiss]
  · simp [dxpeditionsHandler, hmiss]
  · simp [dxSpiderOnClose, List.length_pos.mpr hne]

/-- Witness for the amended claim C4 on concrete inputs. -/
theorem c4_cache_timestamp_semantics_witness :
    (tleHandler 3 (⟨none, 0⟩ : CacheEntry ℕ) (some 42) 8).1.timestamp = 3 ∧
    (dxpeditionsHandler 3 (⟨none, 0⟩ : CacheEntry ℕ) (some 42) 8).1.timestamp = 3 ∧
    (dxSpiderOnClose [sampleSpot] 8 ⟨[], 0⟩).1.timestamp = 8 :=
  c4_cache_timestamp_semantics ℕ 3 8 8 ⟨none, 0⟩ 42 rfl [sampleSpot] ⟨[], 0⟩ (by decide)

/-- Claim C6: the HamQTH frequency conversion maps the kHz field `14074.0` to
the string `14.074` (kHz divided by 1000 at three decimals), while `145.500`,
at or below the 1000 threshold, is passed through unscaled. -/
theorem c6_freq_normalization :
    hamFreqRender "14074.0".data = "14.074" ∧
    hamFreqRender "14074.0".data = toFixed3Str (JsNum.div1000 ⟨140740, 1⟩) ∧
    jsParseFloatL "14074.0".data = some ⟨140740, 1⟩ ∧
    (⟨140740, 1⟩ : JsNum).toRat = 14074 ∧
    jsParseFloatL "145.500".data = some ⟨145500, 3⟩ ∧
    (⟨145500, 3⟩ : JsNum).toRat = 291 / 2 ∧
    jsNum1000.lt ⟨145500, 3⟩ = false ∧
    hamFreqRender "145.500".data = jsNumToString ⟨145500, 3⟩ :=
  ⟨by decide, by decide, by decide, by norm_num [JsNum.toRat], by decide,
   by norm_num [JsNum.toRat], by decide, by decide⟩

/-- Claim C10: the prefix lookup is a total deterministic function: a table
hit on the first two characters takes precedence, else the first character is
tried, else the result is null; every hit carries the queried callsign and
the `estimated` flag. -/
theorem c10_geo_estimate_spec (cs : String) :
    (∀ loc : GeoLoc, lookupTable (String.mk (cs.data.take 2)) = some loc →
      estimateLocationFromPrefix cs = some ⟨cs, loc.lat, loc.lon, loc.country, true⟩) ∧
    (lookupTable (String.mk (cs.data.take 2)) = none →
      ∀ loc : GeoLoc, lookupTable (String.mk (cs.data.take 1)) = some loc →
      estimateLocationFromPrefix cs = some ⟨cs, loc.lat, loc.lon, loc.country, true⟩) ∧
    (lookupTable (String.mk (cs.data.take 2)) = none →
      lookupTable (String.mk (cs.data.take 1)) = none →
      estimateLocationFromPrefix cs = none) ∧
    (∀ r : EstimatedLoc, estimateLocationFromPrefix cs = some r →
      r.estimated = true ∧ r.callsign = cs) := by
  refine ⟨?_, ?_, ?_, ?_⟩
  · intro loc h2
    unfold estimateLocationFromPrefix
    rw [h2]
  · intro h2 loc h1
    unfold estimateLocationFromPrefix
    rw [h2, h1]
  · intro h2 h1
    unfold estimateLocationFromPrefix
    rw [h2, h1]
  · intro r hr
    unfold estimateLocationFromPrefix at hr
    cases h2 : lookupTable (String.mk (cs.data.take 2)) with
    | some loc =>
      rw [h2] at hr
      cases hr
      exact ⟨rfl, rfl⟩
    | none =>
      rw [h2] at hr
      cases h1 : lookupTable (String.mk (cs.data.take 1)) with
      | some loc =>
        rw [h1] at hr
        cases hr
        exact ⟨rfl, rfl⟩
      | none =>
        rw [h1] at hr
        cases hr

/-- Witness for claim C10: a two-character table hit. -/
theorem c10_geo_estimate_spec_witness :
    estimateLocationFromPrefix "DL1ABC" = some ⟨"DL1ABC", 51.2, 10.4, "Germany", true⟩ :=
  (c10_geo_estimate_spec "DL1ABC").1 ⟨51.2, 10.4, "Germany"⟩ rfl

/-- The per-spot field invariant asserted by the specification: positive
frequency rendered at three decimals, non-empty upper-cased callsigns. -/
def spotFieldInvariant (s : Spot) : Prop :=
  ((jsParseFloatL s.freq.data).getD jsNum0).pos = true ∧ threeDecimals s.freq = true ∧
  s.call ≠ "" ∧ jsToUpper s.call = s.call ∧ s.spotter ≠ "" ∧ jsToUpper s.spotter = s.spotter

/-- Claim C5 counterexample: a HamQTH CSV line with an empty spotter field and
a lower-case DX call is parsed into a Spot violating the field invariant (the
HamQTH mapping neither upper-cases nor rejects empty fields). -/
theorem c5_field_invariant_counterexample :
    parseHamQTHBody "^14074.0^tx5u^cq^2149 2025-05-27" =
      some [⟨"14.074", "tx5u", "cq", "21:49z", "", "HamQTH"⟩] ∧
    ¬ spotFieldInvariant ⟨"14.074", "tx5u", "cq", "21:49z", "", "HamQTH"⟩ := by
  constructor
  · decide
  · intro hinv
    exact hinv.2.2.2.2.1 rfl

/-- Claim C5 amended: the invariant holds of the DX Spider parser — every spot
it retains has a non-empty DX call and spotter, a frequency rendered with
exactly three decimal digits (its parsed kHz value was checked positive), and
the `DX Spider` tag; the HamQTH mapping passes fields through unchanged. -/
theorem c5_dxspider_field_invariants (lines : List String) (s : Spot)
    (h : s ∈ lines.foldl processDXLine []) :
    s.call ≠ "" ∧ s.spotter ≠ "" ∧ threeDecimals s.freq = true ∧ s.source = "DX Spider" :=
  foldDX_ok lines [] (by simp) s h

/-- Witness for the amended claim C5 on one concrete session line. -/
theorem c5_dxspider_field_invariants_witness :
    sampleSpot.call ≠ "" ∧ sampleSpot.spotter ≠ "" ∧
    threeDecimals sampleSpot.freq = true ∧ sampleSpot.source = "DX Spider" :=
  c5_dxspider_field_invariants [spiderLine1] sampleSpot (by decide)

/-- Claim C7: two session lines with identical DX call and rendered frequency
but different comments retain exactly one Spot, the first one parsed. -/
theorem c7_dxspider_dedup (l1 l2 : String) (g1 g2 : SpotGroups)
    (h1 : dxLineGroups l1 = some g1) (h2 : dxLineGroups l2 = some g2)
    (hpos : ((jsParseFloatL g1.freqRaw).getD jsNum0).pos = true)
    (hcall : String.mk g1.dxCall = String.mk g2.dxCall)
    (hfreq : toFixed3Str ((jsParseFloatL g1.freqRaw).getD jsNum0).div1000 =
      toFixed3Str ((jsParseFloatL g2.freqRaw).getD jsNum0).div1000)
    (hcmt : String.mk (jsTrimL g1.comment) ≠ String.mk (jsTrimL g2.comment)) :
    [l1, l2].foldl processDXLine [] = [mkSpiderSpot g1] ∧
    ([l1, l2].foldl processDXLine []).length = 1 := by
  have hdx1 : g1.dxCall ≠ [] := (dxLineGroups_groups h1).2.2
  have step1 : processDXLine [] l1 = [mkSpiderSpot g1] := by
    unfold processDXLine
    rw [h1]
    have hcond : (((jsParseFloatL g1.freqRaw).getD jsNum0).pos && !g1.dxCall.isEmpty) = true := by
      rw [hpos]
      simpa [List.isEmpty_iff] using hdx1
    simp [hcond]
  have step2 : processDXLine [mkSpiderSpot g1] l2 = [mkSpiderSpot g1] := by
    unfold processDXLine
    rw [h2]
    cases hc2 : (((jsParseFloatL g2.freqRaw).getD jsNum0).pos && !g2.dxCall.isEmpty) with
    | false => simp [hc2]
    | true =>
      have hany : ([mkSpiderSpot g1].any fun s =>
          s.call == (mkSpiderSpot g2).call && s.freq == (mkSpiderSpot g2).freq) = true := by
        simp [mkSpiderSpot, hcall, hfreq]
      simp [hc2, hany]
  have hfold : [l1, l2].foldl processDXLine [] = [mkSpiderSpot g1] := by
    show processDXLine (processDXLine [] l1) l2 = [mkSpiderSpot g1]
    rw [step1, step2]
  exact ⟨hfold, by rw [hfold]; rfl⟩

/-- Witness for claim C7 on two concrete session lines. -/
theorem c7_dxspider_dedup_witness :
    [spiderLine1, spiderLine2].foldl processDXLine [] =
      [mkSpiderSpot ⟨"W3LPL".data, "14195.0".data, "TI5/AA8HH".data,
        "FT8 -09 dB".data, "1234".data⟩] ∧
    ([spiderLine1, spiderLine2].foldl processDXLine []).length = 1 :=
  c7_dxspider_dedup spiderLine1 spiderLine2
    ⟨"W3LPL".data, "14195.0".data, "TI5/AA8HH".data, "FT8 -09 dB".data, "1234".data⟩
    ⟨"K9XYZ".data, "14195.0".data, "TI5/AA8HH".data, "loud signal".data, "1240".data⟩
    (by decide) (by decide) (by decide) (by decide) (by decide) (by decide)

/-- Claim C8: a body line that does not contain the caret delimiter is skipped
without aborting the batch: a three-line body with two well-formed lines and
one malformed line yields exactly the two Spots of the well-formed lines. -/
theorem c8_malformed_line_skipped (g1 bad g2 : String)
    (hg1 : g1.data.contains '^' = true) (hg2 : g2.data.contains '^' = true)
    (hbad : bad.data.contains '^' = false)
    (hn1 : ∀ c ∈ g1.data, ¬c = '\n') (hnb : ∀ c ∈ bad.data, ¬c = '\n')
    (hn2 : ∀ c ∈ g2.data, ¬c = '\n')
    (htrim : jsTrimL (g1 ++ "\n" ++ bad ++ "\n" ++ g2).data =
      (g1 ++ "\n" ++ bad ++ "\n" ++ g2).data) :
    parseHamQTHBody (g1 ++ "\n" ++ bad ++ "\n" ++ g2) =
      some [parseHamQTHLine g1.data, parseHamQTHLine g2.data] := by
  have hdata : (g1 ++ "\n" ++ bad ++ "\n" ++ g2).data =
      g1.data ++ '\n' :: (bad.data ++ '\n' :: g2.data) := by
    simp [String.data_append]
  have hsplit : splitOnChar '\n' (g1.data ++ '\n' :: (bad.data ++ '\n' :: g2.data)) =
      [g1.data, bad.data, g2.data] := by
    rw [splitOnChar_append hn1, splitOnChar_append hnb, splitOnChar_sepFree hn2]
  have hg1m : '^' ∈ g1.data := by simpa using hg1
  have hg2m : '^' ∈ g2.data := by simpa using hg2
  have hbadm : ¬ '^' ∈ bad.data := by simpa using hbad
  unfold parseHamQTHBody
  rw [htrim, hdata, hsplit]
  simp [List.filter, hg1m, hbadm, hg2m]

/-- Witness for claim C8 on a concrete three-line body. -/
theorem c8_malformed_line_skipped_witness :
    parseHamQTHBody ("K1ABC^14074.0^TX5U^CQ^2149 2025-05-27" ++ "\n" ++
        "malformed line" ++ "\n" ++ "W2DEF^7074.0^JA1AB^FT8^2150 2025-05-27") =
      some [parseHamQTHLine "K1ABC^14074.0^TX5U^CQ^2149 2025-05-27".data,
        parseHamQTHLine "W2DEF^7074.0^JA1AB^FT8^2150 2025-05-27".data] :=
  c8_malformed_line_skipped "K1ABC^14074.0^TX5U^CQ^2149 2025-05-27" "malformed line"
    "W2DEF^7074.0^JA1AB^FT8^2150 2025-05-27"
    (by decide) (by decide) (by decide) (by decide) (by decide) (by decide) (by decide)

/-- A hit in the `locations` map implies the prefix estimator resolves that
callsign. -/
theorem pathLookup_isSome_estimate {spots : List PathSpot} {c : String} {loc : GeoLoc}
    (h : pathLookup spots c = some loc) : ( estimateLocationFromPrefix c).isSome = true := by
  unfold pathLookup at h
  obtain ⟨q, hq, -⟩ := Option.map_eq_some'.mp h
  have hqc : (q.1 == c) = true := by
    have h3 := List.find?_some hq
    simpa using h3
  have hqmem : q ∈ pathLocations spots := List.mem_of_find?_eq_some hq
  unfold pathLocations at hqmem
  obtain ⟨call, -, hcall⟩ := List.mem_filterMap.mp hqmem
  obtain ⟨e, he, hqe⟩ := Option.map_eq_some'.mp hcall
  subst hqe
  obtain rfl : call = c := eq_of_beq hqc
  rw [he]
  rfl

/-- Claim C9: the paths endpoint emits one path per spot only when both the
spotter and the DX callsign resolved to a location, silently drops the rest,
never exceeds 25 paths, and on the three-spot scenario with two fully
resolvable spots yields exactly two paths. -/
theorem c9_paths_resolution (spots : List PathSpot) (p : DxPath) :
    (buildPaths spots).length ≤ 25 ∧
    (p ∈ buildPaths spots →
      ( estimateLocationFromPrefix p.spotter).isSome = true ∧
      ( estimateLocationFromPrefix p.dxCall).isSome = true ∧
      ∃ s ∈ spots, s.spotter = p.spotter ∧ s.dxCall = p.dxCall) ∧
    (buildPaths pathScenario).length = 2 := by
  refine ⟨List.length_take_le _ _, ?_, by decide⟩
  intro hp
  have hp2 : p ∈ spots.filterMap fun s =>
      match pathLookup spots s.spotter, pathLookup spots s.dxCall with
      | some sl, some dl =>
        some ⟨s.spotter, sl.lat, sl.lon, sl.country, s.dxCall, dl.lat, dl.lon, dl.country,
          s.freq, s.comment, s.time⟩
      | _, _ => none := List.take_subset _ _ hp
  obtain ⟨s, hsmem, hfs⟩ := List.mem_filterMap.mp hp2
  cases hsp : pathLookup spots s.spotter with
  | none =>
    rw [hsp] at hfs
    cases hdx : pathLookup spots s.dxCall <;> rw [hdx] at hfs <;> exact absurd hfs (by simp)
  | some sl =>
    cases hdx : pathLookup spots s.dxCall with
    | none =>
      rw [hsp, hdx] at hfs
      exact absurd hfs (by simp)
    | some dl =>
      rw [hsp, hdx] at hfs
      obtain rfl := Option.some.inj hfs
      exact ⟨pathLookup_isSome_estimate hsp, pathLookup_isSome_estimate hdx,
        s, hsmem, rfl, rfl⟩

/-- Witness for claim C9 at the first path of the concrete scenario. -/
theorem c9_paths_resolution_witness :
    ( estimateLocationFromPrefix "K1ABC").isSome = true ∧
    ( estimateLocationFromPrefix "DL1XX").isSome = true ∧
    ∃ s ∈ pathScenario, s.spotter = "K1ABC" ∧ s.dxCall = "DL1XX" :=
  (c9_paths_resolution pathScenario
      ⟨"K1ABC", 39.8, -98.5, "USA", "DL1XX", 51.2, 10.4, "Germany",
        "14.074", "cq", "12:34z"⟩).2.1
    (by rw [show buildPaths pathScenario =
        [⟨"K1ABC", 39.8, -98.5, "USA", "DL1XX", 51.2, 10.4, "Germany",
          "14.074", "cq", "12:34z"⟩,
         ⟨"W2DEF", 39.8, -98.5, "USA", "JA1AA", 36.2, 138.3, "Japan",
          "7.074", "cq", "12:35z"⟩] from rfl]
        exact List.mem_cons_self _ _)

end HamClock
